import Mathlib

/-!
# Verification of the fallback bibliographic search module

Shallow embedding of `fallback_search.py`: a title-similarity check
(`_title_similar`), two per-service search functions (`search_arxiv`,
`search_google_scholar`) and an orchestrator (`fallback_search`).

Modelling conventions:
* Network traffic and XML/scholarly parsing are abstracted into oracle inputs
  (`Except String …`): `Except.error e` models an exception raised while
  fetching or parsing, `Except.ok r` a successfully parsed response.  The
  request construction (query parameters, `max_results`, time-outs) only
  affects which response the oracle yields, so it is absorbed into the oracle.
* Python exceptions raised inside a `try:` body (e.g. the `IndexError` from
  `authors[0].split()[-1]` when the first author has no word) are modelled by
  `Option` propagation; the enclosing `except` clause turns them into `None`.
* Strings are modelled over Lean `Char`s; Python's `str.lower`, `\w`, `\d`,
  `str.split()` are modelled by their ASCII behaviour (`Char.toLower`,
  alphanumeric-or-underscore, `Char.isDigit`, whitespace runs), which agrees
  with Python on ASCII input.
* Python's float comparison `len(intersection) / len(union) >= 0.7` is
  modelled by the exact rational comparison `7 * |union| ≤ 10 * |intersection|`;
  the two agree for every set size representable in memory.
* The `print` side effects are irrelevant to the claims; the orchestrator's
  observable effects (which services were invoked, whether the courtesy
  `time.sleep(1)` ran) are recorded in an explicit trace structure.
-/

namespace FallbackSearch

/-- ASCII model of a Python `\w` word character: alphanumeric or underscore. -/
def isWordChar (c : Char) : Bool := c.isAlphanum || c == '_'

/-- Maximal runs of characters satisfying `p` (accumulator holds the current
run reversed).  This is the common core of `re.findall(r'\w+', s)` and
`str.split()`. -/
def runsBy (p : Char → Bool) : List Char → List Char → List (List Char)
  | [], acc => if acc.isEmpty then [] else [acc.reverse]
  | c :: cs, acc =>
    if p c then runsBy p cs (c :: acc)
    else if acc.isEmpty then runsBy p cs []
    else acc.reverse :: runsBy p cs []

/-- The maximal runs of `p`-characters of `s`, as strings. -/
def tokensBy (p : Char → Bool) (s : String) : List String :=
  (runsBy p s.data []).map String.mk

/-- Model of Python `str.lower()` (ASCII). -/
def pyLower (s : String) : String := String.mk (s.data.map Char.toLower)

/-- Model of `re.findall(r'\w+', s)`. -/
def findallWords (s : String) : List String := tokensBy isWordChar s

/-- The `normalize` helper inside `_title_similar`:
`set(re.findall(r'\w+', s.lower()))`. -/
def normalize (s : String) : Finset String := (findallWords (pyLower s)).toFinset

/-- Model of `_title_similar(title1, title2, threshold=0.7)` (no caller overrides the
threshold).  `len(i)/len(u) >= 0.7` is the exact comparison
`7 * len(u) <= 10 * len(i)`. -/
def _title_similar (title1 title2 : String) : Bool :=
  let words1 := normalize title1
  let words2 := normalize title2
  if words1 = ∅ ∨ words2 = ∅ then
    false
  else
    decide (7 * (words1 ∪ words2).card ≤ 10 * (words1 ∩ words2).card)

/-- Model of Python `sep.join(pieces)`. -/
def joinWith (sep : String) : List String → String
  | [] => ""
  | [x] => x
  | x :: xs => x ++ sep ++ joinWith sep xs

/-- Model of Python `s.split()` (no separator: whitespace runs, empties
discarded). -/
def pySplit (s : String) : List String := tokensBy (fun c => !c.isWhitespace) s

/-- Model of `' '.join(s.split())`: collapse whitespace. -/
def normalizeWs (s : String) : String := joinWith " " (pySplit s)

/-- Model of Python `s.split(sep)` for a single-character separator: split at
every occurrence of `sep`, keeping empty pieces. -/
def splitOnChar (sep : Char) : List Char → List (List Char)
  | [] => [[]]
  | c :: cs =>
    if c = sep then [] :: splitOnChar sep cs
    else
      match splitOnChar sep cs with
      | [] => [[c]]
      | p :: ps => (c :: p) :: ps

/-- Model of Python `s.split('/')[-1]`: `str.split` always yields at least
one piece, so indexing the last element never fails. -/
def lastSlashComponent (s : String) : String :=
  String.mk ((splitOnChar '/' s.data).getLastD [])

/-- Does `pat` occur contiguously in `s`?  Model of Python `pat in s`. -/
def listContainsSub (s pat : List Char) : Bool :=
  (List.range (s.length + 1)).any (fun i => pat.isPrefixOf (s.drop i))

/-- Python `sub in s` on strings. -/
def pyContains (s sub : String) : Bool := listContainsSub s.data sub.data

/-- Matcher for `v\d+` ending at the current anchor position, on the
reversed character list: `some rest` when the anchor is preceded by a
non-empty digit run that is immediately preceded by `'v'` (`rest` is what
precedes the match, still reversed), `none` when no match ends here. -/
def stripVSuffixRev (rev : List Char) : Option (List Char) :=
  match rev.takeWhile Char.isDigit, rev.dropWhile Char.isDigit with
  | _ :: _, c :: rest => if c = 'v' then some rest else none
  | _, _ => none

/-- Core of `re.sub(r'v\d+$', '', s)` on the reversed character list.
Python's `$` (without `re.MULTILINE`) matches at the end of the string and
also just before a newline that ends the string, so a `v\d+` match is sought
at the very end and, when the string ends with `'\n'`, just before that final
newline; the two anchors cannot both yield a match, since a digit is not a
newline. -/
def stripVersionRev (rev : List Char) : List Char :=
  match rev with
  | [] => []
  | c :: rest =>
    if c = '\n' then
      match stripVSuffixRev rest with
      | some tail => c :: tail
      | none => c :: rest
    else
      match stripVSuffixRev (c :: rest) with
      | some tail => tail
      | none => c :: rest

/-- Model of `re.sub(r'v\d+$', '', s)`: strip a version suffix at the end of
the string or just before its final newline. -/
def stripVersion (s : String) : String :=
  String.mk ((stripVersionRev s.data.reverse).reverse)

/-- The arxiv-identifier extraction in `search_arxiv`:
`id.split('/')[-1]` followed by the version-suffix strip. -/
def extractArxivId (url : String) : String := stripVersion (lastSlashComponent url)

/-- Model of `authors[0].split()[-1] if authors else 'Unknown'`; `none` models the
`IndexError` raised when the first author string has no word. -/
def lastnameOf : List String → Option String
  | [] => some "Unknown"
  | a :: _ => (pySplit a).getLast?

/-- Model of `' and\n               '.join(authors)`. -/
def joinAuthors (authors : List String) : String :=
  joinWith " and\n               " authors

/-- Model of `_format_arxiv_bibtex(arxiv_id, title, authors, year, doi, journal_ref)`.
`none` models the `IndexError` escaping from the cite-key computation (caught
by the caller's `except`).  `doi` and `journal_ref` are accepted but unused,
exactly as in the source. -/
def _format_arxiv_bibtex (arxiv_id : String) (title : String) (authors : List String)
    (year : String) (doi : Option String) (journal_ref : Option String) : Option String :=
  match lastnameOf authors with
  | none => none
  | some first_author_lastname =>
    let cite_key := "arxiv:" ++ first_author_lastname ++ year
    let author_str := joinAuthors authors
    let bibtex_lines := [
      "@article\x7b" ++ cite_key ++ ",",
      "  author    = \x7b" ++ author_str ++ "\x7d,",
      "  title     = \x7b\x7b" ++ title ++ "\x7d\x7d,",
      "  journal   = \x7barXiv preprint arXiv:" ++ arxiv_id ++ "\x7d,",
      "  year      = \x7b" ++ year ++ "\x7d"
    ]
    let bibtex_lines := bibtex_lines ++ ["\x7d"]
    some (joinWith "\n" bibtex_lines ++ "\n")

/-- One `<entry>` of the parsed arxiv Atom feed.  Each field is the text of
the corresponding child element, `none` when the element is absent. -/
structure ArxivEntry where
  title : Option String
  authors : List String
  published : Option String
  idUrl : Option String
  summary : Option String
  doi : Option String
  journal_ref : Option String

/-- The parsed HTTP response of the arxiv query. -/
structure ArxivResponse where
  status_code : Nat
  entries : List ArxivEntry

/-- Model of `search_arxiv(title)`.  Here `fetch` is the oracle for the HTTP request plus
XML parse; `Except.error` models an exception raised there, which the
function's `except` clause converts to `None`. -/
def search_arxiv (title : String) (fetch : Except String ArxivResponse) : Option String :=
  match fetch with
  | .error _ => none
  | .ok response =>
    if response.status_code ≠ 200 then none
    else
      match response.entries with
      | [] => none
      | entry :: _ =>
        match entry.title with
        | none => none
        | some t =>
          let entry_title := normalizeWs t
          if ¬ _title_similar title entry_title then none
          else
            let author_list := entry.authors
            let year := match entry.published with
              | some p => String.mk (p.data.take 4)
              | none => ""
            let arxiv_id := match entry.idUrl with
              | some u => extractArxivId u
              | none => stripVersion ""
            _format_arxiv_bibtex arxiv_id entry_title author_list year entry.doi entry.journal_ref

/-- The nested `bib` mapping of a scholarly result; `none` models a missing
key.  The `author` value may be a single string or a list. -/
structure ScholarBib where
  title : Option String
  author : Option (String ⊕ List String)
  pub_year : Option String
  venue : Option String
  journal : Option String
  booktitle : Option String

/-- One scholarly result record.  A result whose `bib` key is missing behaves
exactly like one whose `bib` has every key missing, so `bib` is kept total. -/
structure ScholarResult where
  bib : ScholarBib
  pub_url : Option String

/-- Model of `bib.get('author', ['Unknown'])`, with a single author string normalized
to a one-element list. -/
def scholarAuthors (bib : ScholarBib) : List String :=
  match bib.author with
  | none => ["Unknown"]
  | some (Sum.inl s) => [s]
  | some (Sum.inr l) => l

/-- Model of `bib.get('venue', bib.get('journal', bib.get('booktitle', '')))`. -/
def scholarVenue (bib : ScholarBib) : String :=
  match bib.venue with
  | some v => v
  | none =>
    match bib.journal with
    | some j => j
    | none => bib.booktitle.getD ""

/-- The publication-type classification of `search_google_scholar`:
`'inproceedings'` when the lower-cased venue contains one of the three
conference keywords, else `'article'`. -/
def scholarPubType (venue : String) : String :=
  if pyContains (pyLower venue) "conference" || pyContains (pyLower venue) "proceedings"
      || pyContains (pyLower venue) "symposium" then "inproceedings"
  else "article"

/-- The venue field line appended by `search_google_scholar`: `booktitle` for
`inproceedings`, `journal` otherwise. -/
def scholarFieldLine (pub_type venue : String) : String :=
  if pub_type = "inproceedings" then "  booktitle = \x7b" ++ venue ++ "\x7d,"
  else "  journal   = \x7b" ++ venue ++ "\x7d,"

/-- Model of `search_google_scholar(title)`.  Here `scholarlyAvailable` models whether
`from scholarly import scholarly` succeeds; `fetch` is the oracle for
`scholarly.search_pubs` plus `next(search_query, None)` (`.ok none` = empty
result sequence, `.error` = an exception, caught and turned into `None`). -/
def search_google_scholar (title : String) (scholarlyAvailable : Bool)
    (fetch : Except String (Option ScholarResult)) : Option String :=
  if !scholarlyAvailable then none
  else
    match fetch with
    | .error _ => none
    | .ok none => none
    | .ok (some result) =>
      let result_title := result.bib.title.getD ""
      if ¬ _title_similar title result_title then none
      else
        let authors : List String := scholarAuthors result.bib
        let year := result.bib.pub_year.getD ""
        let venue := scholarVenue result.bib
        match lastnameOf authors with
        | none => none
        | some first_author_lastname =>
          let cite_key := "scholar:" ++ first_author_lastname ++ year
          let pub_type := scholarPubType venue
          let author_str := joinAuthors authors
          let bibtex_lines := [
            "@" ++ pub_type ++ "\x7b" ++ cite_key ++ ",",
            "  author    = \x7b" ++ author_str ++ "\x7d,",
            "  title     = \x7b" ++ result_title ++ "\x7d,"
          ]
          let bibtex_lines := bibtex_lines ++ [scholarFieldLine pub_type venue]
          let bibtex_lines := bibtex_lines ++
            (if year ≠ "" then ["  year      = \x7b" ++ year ++ "\x7d,"] else [])
          let pub_url := result.pub_url.getD ""
          let bibtex_lines := bibtex_lines ++
            (if pub_url ≠ "" then ["  url       = \x7b" ++ pub_url ++ "\x7d,"] else [])
          let bibtex_lines := bibtex_lines ++ ["\x7d"]
          some (joinWith "\n" bibtex_lines ++ "\n")

/-- Python truthiness of an optional string (`if bibtex:`). -/
def pyTruthy : Option String → Bool
  | none => false
  | some s => !s.isEmpty

/-- Observable outcome of one `fallback_search` call: the returned value plus
which services were invoked and whether the courtesy `time.sleep(1)` ran. -/
structure FallbackTrace where
  result : Option String
  arxivCalled : Bool
  scholarCalled : Bool
  slept : Bool
deriving DecidableEq

/-- Model of `fallback_search(title, use_arxiv=True, use_scholar=True)`.  The sleep
happens immediately before every scholarly attempt, so `slept` is set exactly
when the scholarly search is invoked. -/
def fallback_search (title : String) (use_arxiv use_scholar : Bool)
    (arxivFetch : Except String ArxivResponse)
    (scholarlyAvailable : Bool) (scholarFetch : Except String (Option ScholarResult)) :
    FallbackTrace :=
  if use_arxiv then
    let bibtex := search_arxiv title arxivFetch
    if pyTruthy bibtex then ⟨bibtex, true, false, false⟩
    else if use_scholar then
      let bibtex2 := search_google_scholar title scholarlyAvailable scholarFetch
      if pyTruthy bibtex2 then ⟨bibtex2, true, true, true⟩ else ⟨none, true, true, true⟩
    else ⟨none, true, false, false⟩
  else if use_scholar then
    let bibtex2 := search_google_scholar title scholarlyAvailable scholarFetch
    if pyTruthy bibtex2 then ⟨bibtex2, false, true, true⟩ else ⟨none, false, true, true⟩
  else ⟨none, false, false, false⟩

/-- Spec-side normalization, following the claim's words literally:
lower-cased *alphanumeric* runs (note: without underscore), as a set. -/
def specTokenSetAlnum (s : String) : Finset String :=
  (tokensBy Char.isAlphanum (pyLower s)).toFinset

/-- Spec-side normalization as amended: lower-cased word-character runs
(alphanumeric or underscore), as a set. -/
def specTokenSetWord (s : String) : Finset String :=
  (tokensBy (fun c => c.isAlphanum || c == '_') (pyLower s)).toFinset

/-- Spec-side Jaccard index of two finite string sets, as a rational. -/
def jaccard (A B : Finset String) : ℚ :=
  ((A ∩ B).card : ℚ) / ((A ∪ B).card : ℚ)

/-! ## Helper lemmas -/

theorem data_ne_nil_of_ne_empty {s : String} (h : s ≠ "") : s.data ≠ [] := by
  intro hd
  apply h
  cases s
  simp_all

theorem specTokenSetWord_eq_normalize (s : String) : specTokenSetWord s = normalize s := rfl

theorem takeWhile_digits_append {ds rest : List Char} (h : ∀ a ∈ ds, Char.isDigit a) :
    (ds ++ 'v' :: rest).takeWhile Char.isDigit = ds := by
  rw [List.takeWhile_append_of_pos h, List.takeWhile_cons_of_neg (by decide), List.append_nil]

theorem dropWhile_digits_append {ds rest : List Char} (h : ∀ a ∈ ds, Char.isDigit a) :
    (ds ++ 'v' :: rest).dropWhile Char.isDigit = 'v' :: rest := by
  rw [List.dropWhile_append_of_pos h, List.dropWhile_cons_of_neg (by decide)]

theorem stripVSuffixRev_strip {ds rest : List Char} (h1 : ds ≠ [])
    (h2 : ∀ a ∈ ds, Char.isDigit a) :
    stripVSuffixRev (ds ++ 'v' :: rest) = some rest := by
  unfold stripVSuffixRev
  rw [takeWhile_digits_append h2, dropWhile_digits_append h2]
  cases ds with
  | nil => exact absurd rfl h1
  | cons d ds => simp

/-- At an anchor with no `v`-plus-digits match, the matcher yields `none`. -/
theorem stripVSuffixRev_eq_none (rev : List Char)
    (h : ¬ ∃ ds rest : List Char, ds ≠ [] ∧ (∀ a ∈ ds, Char.isDigit a) ∧
      rev = ds ++ 'v' :: rest) :
    stripVSuffixRev rev = none := by
  unfold stripVSuffixRev
  rcases ht : rev.takeWhile Char.isDigit with _ | ⟨d, ds⟩ <;>
    rcases hd : rev.dropWhile Char.isDigit with _ | ⟨c, rest⟩
  · rfl
  · rfl
  · rfl
  · by_cases hc : c = 'v'
    · exfalso
      subst hc
      have hsplit : (d :: ds) ++ 'v' :: rest = rev := by
        rw [← ht, ← hd, List.takeWhile_append_dropWhile]
      have hdig : ∀ a ∈ d :: ds, Char.isDigit a := by
        intro a ha
        rw [← ht] at ha
        exact List.mem_takeWhile_imp ha
      exact h ⟨d :: ds, rest, by simp, hdig, hsplit.symm⟩
    · simp [hc]

/-- A `v`-plus-digits run ending the string is stripped. -/
theorem stripVersionRev_strip_end {ds rest : List Char} (h1 : ds ≠ [])
    (h2 : ∀ a ∈ ds, Char.isDigit a) :
    stripVersionRev (ds ++ 'v' :: rest) = rest := by
  rcases ds with _ | ⟨d, dtail⟩
  · exact absurd rfl h1
  have hd : Char.isDigit d := h2 d (List.mem_cons_self _ _)
  simp only [List.cons_append, stripVersionRev]
  rw [if_neg (by intro hcn; rw [hcn] at hd; exact absurd hd (by decide)),
    ← List.cons_append, stripVSuffixRev_strip (by simp) h2]

/-- A `v`-plus-digits run just before the final newline is stripped, the
newline kept. -/
theorem stripVersionRev_strip_newline {ds rest : List Char} (h1 : ds ≠ [])
    (h2 : ∀ a ∈ ds, Char.isDigit a) :
    stripVersionRev ('\n' :: (ds ++ 'v' :: rest)) = '\n' :: rest := by
  simp only [stripVersionRev, if_true]
  rw [stripVSuffixRev_strip h1 h2]

/-- With no match at either anchor, the reversed list is unchanged. -/
theorem stripVersionRev_eq_self (rev : List Char)
    (hno : ¬ ∃ ds rest : List Char, ds ≠ [] ∧ (∀ a ∈ ds, Char.isDigit a) ∧
      (rev = ds ++ 'v' :: rest ∨ rev = '\n' :: (ds ++ 'v' :: rest))) :
    stripVersionRev rev = rev := by
  rcases rev with _ | ⟨c, rest0⟩
  · rfl
  simp only [stripVersionRev]
  by_cases hc : c = '\n'
  · rw [if_pos hc]
    have h1 : stripVSuffixRev rest0 = none := by
      apply stripVSuffixRev_eq_none
      rintro ⟨ds, rest, hne, hdig, heq⟩
      exact hno ⟨ds, rest, hne, hdig, Or.inr (by rw [heq, hc])⟩
    rw [h1]
  · rw [if_neg hc]
    have h1 : stripVSuffixRev (c :: rest0) = none := by
      apply stripVSuffixRev_eq_none
      rintro ⟨ds, rest, hne, hdig, heq⟩
      exact hno ⟨ds, rest, hne, hdig, Or.inl heq⟩
    rw [h1]

/-- Applying the version-suffix strip to `pre + 'v' + digits` removes the
suffix at the end of the string. -/
theorem stripVersion_append (pre ds : String) (hne : ds ≠ "")
    (hdig : ds.data.all Char.isDigit = true) :
    stripVersion (pre ++ "v" ++ ds) = pre := by
  have h1 : ds.data.reverse ≠ [] := by
    simp only [ne_eq, List.reverse_eq_nil_iff]
    exact data_ne_nil_of_ne_empty hne
  have h2 : ∀ a ∈ ds.data.reverse, Char.isDigit a := by
    intro a ha
    rw [List.mem_reverse] at ha
    exact List.all_eq_true.mp hdig a ha
  have hrev : (pre ++ "v" ++ ds).data.reverse = ds.data.reverse ++ 'v' :: pre.data.reverse := by
    simp [String.data_append, show ("v" : String).data = ['v'] from rfl]
  unfold stripVersion
  rw [hrev, stripVersionRev_strip_end h1 h2, List.reverse_reverse]

/-- Applying the version-suffix strip to `pre + 'v' + digits + '\n'` removes
the suffix matched just before the final newline, keeping the newline. -/
theorem stripVersion_append_newline (pre ds : String) (hne : ds ≠ "")
    (hdig : ds.data.all Char.isDigit = true) :
    stripVersion (pre ++ "v" ++ ds ++ "\n") = pre ++ "\n" := by
  have h1 : ds.data.reverse ≠ [] := by
    simp only [ne_eq, List.reverse_eq_nil_iff]
    exact data_ne_nil_of_ne_empty hne
  have h2 : ∀ a ∈ ds.data.reverse, Char.isDigit a := by
    intro a ha
    rw [List.mem_reverse] at ha
    exact List.all_eq_true.mp hdig a ha
  have hrev : (pre ++ "v" ++ ds ++ "\n").data.reverse =
      '\n' :: (ds.data.reverse ++ 'v' :: pre.data.reverse) := by
    simp [String.data_append, show ("v" : String).data = ['v'] from rfl,
      show ("\n" : String).data = ['\n'] from rfl]
  unfold stripVersion
  rw [hrev, stripVersionRev_strip_newline h1 h2]
  apply String.ext
  simp [String.data_append, show ("\n" : String).data = ['\n'] from rfl]

/-- When no `v`-plus-digits suffix exists either at the end of the string or
just before a final newline, the strip keeps `s` unchanged. -/
theorem stripVersion_eq_self (s : String)
    (h : ¬ ∃ pre ds : String, ds ≠ "" ∧ ds.data.all Char.isDigit = true ∧
      (s = pre ++ "v" ++ ds ∨ s = pre ++ "v" ++ ds ++ "\n")) :
    stripVersion s = s := by
  unfold stripVersion
  rw [stripVersionRev_eq_self _ ?hno, List.reverse_reverse]
  case hno =>
    rintro ⟨ds, rest, hne, hdig, hcase⟩
    apply h
    refine ⟨String.mk rest.reverse, String.mk ds.reverse, ?_, ?_, ?_⟩
    · intro hmk
      have hdsr : ds.reverse = ([] : List Char) := congrArg String.data hmk
      rw [List.reverse_eq_nil_iff] at hdsr
      exact hne hdsr
    · rw [List.all_eq_true]
      intro a ha
      rw [List.mem_reverse] at ha
      exact hdig a ha
    · rcases hcase with hc | hc
      · refine Or.inl (String.ext ?_)
        have hs : s.data = rest.reverse ++ 'v' :: ds.reverse := by
          have hrev := congrArg List.reverse hc
          rw [List.reverse_reverse] at hrev
          rw [hrev]
          simp
        rw [hs]
        simp [String.data_append, show ("v" : String).data = ['v'] from rfl]
      · refine Or.inr (String.ext ?_)
        have hs : s.data = (rest.reverse ++ 'v' :: ds.reverse) ++ ['\n'] := by
          have hrev := congrArg List.reverse hc
          rw [List.reverse_reverse] at hrev
          rw [hrev]
          simp
        rw [hs]
        simp [String.data_append, show ("v" : String).data = ['v'] from rfl,
          show ("\n" : String).data = ['\n'] from rfl]

/-! ## Claims about the similarity check -/

/-- Claim C3: the title-similarity check is symmetric:
`_title_similar(A, B) = _title_similar(B, A)` for every pair of inputs. -/
theorem title_similar_symm (a b : String) : _title_similar a b = _title_similar b a := by
  simp only [_title_similar]
  generalize normalize a = A
  generalize normalize b = B
  by_cases h1 : A = ∅ <;> by_cases h2 : B = ∅ <;>
    simp [h1, h2, Finset.union_comm B A, Finset.inter_comm B A]

/-- Claim C2 (amended): `_title_similar` returns true iff both inputs'
normalized token sets (lower-cased word-character runs, i.e. alphanumeric or
underscore, as sets) are non-empty and their Jaccard index is at least 0.7;
in particular it is false when either token set is empty, and true for
identical non-empty token sets. -/
theorem title_similar_spec (t1 t2 : String) :
    _title_similar t1 t2 = true ↔
      (specTokenSetWord t1 ≠ ∅ ∧ specTokenSetWord t2 ≠ ∅ ∧
        (7 : ℚ) / 10 ≤ jaccard (specTokenSetWord t1) (specTokenSetWord t2)) := by
  rw [specTokenSetWord_eq_normalize, specTokenSetWord_eq_normalize]
  simp only [_title_similar, jaccard]
  generalize normalize t1 = A
  generalize normalize t2 = B
  by_cases h1 : A = ∅
  · simp [h1]
  by_cases h2 : B = ∅
  · simp [h1, h2]
  have hU : (A ∪ B).Nonempty := by
    rcases Finset.nonempty_iff_ne_empty.mpr h1 with ⟨x, hx⟩
    exact ⟨x, Finset.mem_union_left _ hx⟩
  have hUq : (0 : ℚ) < ((A ∪ B).card : ℚ) := by
    exact_mod_cast Finset.card_pos.mpr hU
  rw [if_neg (by tauto)]
  simp only [ne_eq, h1, not_false_eq_true, h2, true_and, decide_eq_true_eq]
  rw [div_le_div_iff₀ (by norm_num) hUq, mul_comm (((A ∩ B).card : ℚ)) 10]
  exact_mod_cast Iff.rfl

/-- Claim C2 (counterexample): with tokens read as *alphanumeric* runs (the
claim's words), the titles `"a_b"` and `"a b"` have identical non-empty token
sets (Jaccard 1), yet `_title_similar` returns false, because Python's `\w`
also includes the underscore. -/
theorem title_similar_alnum_cex :
    _title_similar "a_b" "a b" = false ∧
    ¬ (_title_similar "a_b" "a b" = true ↔
      (specTokenSetAlnum "a_b" ≠ ∅ ∧ specTokenSetAlnum "a b" ≠ ∅ ∧
        (7 : ℚ) / 10 ≤ jaccard (specTokenSetAlnum "a_b") (specTokenSetAlnum "a b"))) := by
  have hfalse : _title_similar "a_b" "a b" = false := by decide
  refine ⟨hfalse, fun hiff => ?_⟩
  have h1 : specTokenSetAlnum "a_b" = ({"a", "b"} : Finset String) := by decide
  have h2 : specTokenSetAlnum "a b" = ({"a", "b"} : Finset String) := by decide
  have hc : ({"a", "b"} : Finset String).card = 2 := by decide
  have hj : (7 : ℚ) / 10 ≤ jaccard (specTokenSetAlnum "a_b") (specTokenSetAlnum "a b") := by
    rw [h1, h2]
    simp only [jaccard, Finset.inter_self, Finset.union_self, hc]
    norm_num
  have hmpr := hiff.mpr ⟨by rw [h1]; decide, by rw [h2]; decide, hj⟩
  rw [hfalse] at hmpr
  exact Bool.noConfusion hmpr

/-- Witness for C2: a concrete pair with identical non-empty word sets is
similar. -/
theorem title_similar_spec_witness :
    _title_similar "deep learning" "deep learning" = true := by
  refine (title_similar_spec "deep learning" "deep learning").mpr ⟨by decide, by decide, ?_⟩
  have hc : (specTokenSetWord "deep learning").card = 2 := by decide
  simp only [jaccard, Finset.inter_self, Finset.union_self, hc]
  norm_num

/-! ## Claims about the version-suffix strip -/

/-- Counterexample to C4 as stated: the identifier `"1706.03762v5\n"` does
not end in a trailing `v`-plus-digits suffix (its last character is a
newline), yet the code does not emit it unchanged — the regex anchor `$`
also matches just before a final newline, so the suffix is stripped to
`"1706.03762\n"`; the same happens through the extraction pipeline. -/
theorem version_suffix_cex :
    stripVersion "1706.03762v5\n" = "1706.03762\n" ∧
    stripVersion "1706.03762v5\n" ≠ "1706.03762v5\n" ∧
    (¬ ∃ pre ds : String, ds ≠ "" ∧ ds.data.all Char.isDigit = true ∧
      ("1706.03762v5\n" : String) = pre ++ "v" ++ ds) ∧
    extractArxivId "http://arxiv.org/abs/1706.03762v5\n" = "1706.03762\n" := by
  refine ⟨by decide, by decide, ?_, by decide⟩
  rintro ⟨pre, ds, hne, hdig, heq⟩
  have hlast : ("1706.03762v5\n" : String).data.getLast? = some '\n' := by decide
  have hdata : (pre ++ "v" ++ ds).data = (pre.data ++ ['v']) ++ ds.data := by
    simp [String.data_append, show ("v" : String).data = ['v'] from rfl]
  rw [heq, hdata, List.getLast?_append_of_ne_nil _ (data_ne_nil_of_ne_empty hne)] at hlast
  rcases List.mem_getLast?_eq_getLast (Option.mem_def.mpr hlast) with ⟨hds, hget⟩
  have hmem := List.getLast_mem hds
  rw [← hget] at hmem
  have hdignl : Char.isDigit '\n' := List.all_eq_true.mp hdig '\n' hmem
  exact absurd hdignl (by decide)

/-- Claim C4 (amended): an identifier ending in a `v`-plus-digits version
suffix — at the end of the string, or immediately before a single final
newline, where the regex anchor `$` also matches — has that suffix stripped;
an identifier with no such suffix at either position is kept unchanged.
Both hold for `stripVersion` itself and through the full extraction pipeline
(`id.split('/')[-1]` then the strip). -/
theorem version_suffix_spec :
    (∀ pre ds : String, ds ≠ "" → ds.data.all Char.isDigit = true →
      stripVersion (pre ++ "v" ++ ds) = pre) ∧
    (∀ pre ds : String, ds ≠ "" → ds.data.all Char.isDigit = true →
      stripVersion (pre ++ "v" ++ ds ++ "\n") = pre ++ "\n") ∧
    (∀ s : String,
      (¬ ∃ pre ds : String, ds ≠ "" ∧ ds.data.all Char.isDigit = true ∧
        (s = pre ++ "v" ++ ds ∨ s = pre ++ "v" ++ ds ++ "\n")) →
      stripVersion s = s) ∧
    (∀ url pre ds : String, ds ≠ "" → ds.data.all Char.isDigit = true →
      lastSlashComponent url = pre ++ "v" ++ ds → extractArxivId url = pre) ∧
    (∀ url : String,
      (¬ ∃ pre ds : String, ds ≠ "" ∧ ds.data.all Char.isDigit = true ∧
        (lastSlashComponent url = pre ++ "v" ++ ds ∨
         lastSlashComponent url = pre ++ "v" ++ ds ++ "\n")) →
      extractArxivId url = lastSlashComponent url) := by
  refine ⟨stripVersion_append, stripVersion_append_newline, stripVersion_eq_self, ?_, ?_⟩
  · intro url pre ds h1 h2 h3
    unfold extractArxivId
    rw [h3]
    exact stripVersion_append pre ds h1 h2
  · intro url h
    exact stripVersion_eq_self _ h

/-- Witness for C4: both anchor positions at the spec's example identifier,
and an identifier with no version suffix kept unchanged. -/
theorem version_suffix_spec_witness :
    stripVersion ("1706.03762" ++ "v" ++ "5") = "1706.03762" ∧
    stripVersion ("1706.03762" ++ "v" ++ "5" ++ "\n") = "1706.03762" ++ "\n" ∧
    stripVersion "1812.11928" = "1812.11928" ∧
    extractArxivId "http://arxiv.org/abs/1706.03762v5" = "1706.03762" := by
  refine ⟨version_suffix_spec.1 "1706.03762" "5" (by decide) (by decide),
    version_suffix_spec.2.1 "1706.03762" "5" (by decide) (by decide),
    version_suffix_spec.2.2.1 "1812.11928" ?_,
    version_suffix_spec.2.2.2.1 "http://arxiv.org/abs/1706.03762v5" "1706.03762" "5"
      (by decide) (by decide) (by decide)⟩
  rintro ⟨pre, ds, hne, hdig, heq⟩
  have hv : 'v' ∈ ("1812.11928" : String).data := by
    rcases heq with hc | hc <;>
      rw [hc] <;>
        simp [String.data_append, show ("v" : String).data = ['v'] from rfl]
  exact absurd hv (by decide)

/-! ## Claims about the search functions -/

/-- Claim C5: `search_arxiv` returns nothing when the HTTP status is not 200,
when the parsed feed has zero entries, and when the first entry's title fails
the similarity check against the input title. -/
theorem arxiv_none_cases :
    (∀ (t : String) (r : ArxivResponse), r.status_code ≠ 200 →
      search_arxiv t (.ok r) = none) ∧
    (∀ (t : String) (r : ArxivResponse), r.entries = [] →
      search_arxiv t (.ok r) = none) ∧
    (∀ (t : String) (r : ArxivResponse) (e : ArxivEntry) (rest : List ArxivEntry)
      (et : String), r.entries = e :: rest → e.title = some et →
      _title_similar t (normalizeWs et) = false →
      search_arxiv t (.ok r) = none) := by
  refine ⟨?_, ?_, ?_⟩
  · intro t r h
    simp [search_arxiv, h]
  · intro t r h
    by_cases hs : r.status_code = 200
    · simp [search_arxiv, hs, h]
    · simp [search_arxiv, hs]
  · intro t r e rest et hr ht hsim
    by_cases hs : r.status_code = 200
    · simp [search_arxiv, hs, hr, ht, hsim]
    · simp [search_arxiv, hs]

/-- Witness for C5: a non-200 status, an empty feed, and a dissimilar first
title each produce `none`. -/
theorem arxiv_none_cases_witness :
    search_arxiv "a title" (.ok ⟨500, []⟩) = none ∧
    search_arxiv "a title" (.ok ⟨200, []⟩) = none ∧
    search_arxiv "a title"
      (.ok ⟨200, [⟨some "unrelated result", [], none, none, none, none, none⟩]⟩) = none :=
  ⟨arxiv_none_cases.1 "a title" _ (by decide),
   arxiv_none_cases.2.1 "a title" _ rfl,
   arxiv_none_cases.2.2 "a title" _ _ [] "unrelated result" rfl rfl (by decide)⟩

/-- Claim C7: neither search function propagates an exception to the caller: an
exception in the network call or parsing (`Except.error`) yields `None`, and
so does an unavailable scholarly dependency. -/
theorem searches_never_raise :
    (∀ (t e : String), search_arxiv t (.error e) = none) ∧
    (∀ (t e : String) (avail : Bool), search_google_scholar t avail (.error e) = none) ∧
    (∀ (t : String) (fetch : Except String (Option ScholarResult)),
      search_google_scholar t false fetch = none) := by
  refine ⟨fun t e => rfl, fun t e avail => ?_, fun t fetch => rfl⟩
  cases avail <;> rfl

/-- Claim C8: with both service flags disabled, the orchestrator returns `None`
and invokes no search function and no delay. -/
theorem fallback_disabled :
    ∀ (t : String) (af : Except String ArxivResponse) (sa : Bool)
      (sf : Except String (Option ScholarResult)),
      fallback_search t false false af sa sf = ⟨none, false, false, false⟩ :=
  fun _ _ _ _ => rfl

/-! ## Shape of the formatted records -/

theorem append_newline_ne_empty (x : String) : x ++ "\n" ≠ "" := by
  intro h
  have hd : (x ++ "\n").data = [] := by rw [h]
  rw [String.data_append] at hd
  rcases List.append_eq_nil.mp hd with ⟨-, h2⟩
  exact absurd h2 (by decide)

theorem joinWith_cons_of_ne (sep x : String) {xs : List String} (h : xs ≠ []) :
    joinWith sep (x :: xs) = x ++ sep ++ joinWith sep xs := by
  cases xs with
  | nil => exact absurd rfl h
  | cons y ys => rfl

/-- A successful `_format_arxiv_bibtex` call yields exactly the joined
record lines. -/
theorem format_arxiv_eq {arxiv_id title year : String} {authors : List String}
    {doi journal_ref : Option String} {s : String}
    (h : _format_arxiv_bibtex arxiv_id title authors year doi journal_ref = some s) :
    ∃ ln : String, lastnameOf authors = some ln ∧
      s = joinWith "\n"
        (["@article\x7b" ++ ("arxiv:" ++ ln ++ year) ++ ",",
          "  author    = \x7b" ++ joinAuthors authors ++ "\x7d,",
          "  title     = \x7b\x7b" ++ title ++ "\x7d\x7d,",
          "  journal   = \x7barXiv preprint arXiv:" ++ arxiv_id ++ "\x7d,",
          "  year      = \x7b" ++ year ++ "\x7d"] ++ ["\x7d"]) ++ "\n" := by
  unfold _format_arxiv_bibtex at h
  rcases hl : lastnameOf authors with _ | ln <;> rw [hl] at h
  · exact Option.noConfusion h
  · exact ⟨ln, rfl, (Option.some.inj h).symm⟩

/-- A successful `search_arxiv` result is never the empty string (it always
ends with a closing line). -/
theorem search_arxiv_ne_empty {t : String} {f : Except String ArxivResponse} {s : String}
    (h : search_arxiv t f = some s) : s ≠ "" := by
  rcases f with e | ⟨sc, entries⟩
  · exact Option.noConfusion h
  rcases entries with _ | ⟨⟨etitle, eauth, epub, eid, esum, edoi, ejref⟩, rest⟩
  · by_cases hs : sc = 200 <;> simp [search_arxiv, hs] at h
  rcases etitle with _ | et
  · by_cases hs : sc = 200 <;> simp [search_arxiv, hs] at h
  by_cases hs : sc = 200
  case neg => simp [search_arxiv, hs] at h
  by_cases hsim : _title_similar t (normalizeWs et) = true
  case neg => simp [search_arxiv, hs, hsim] at h
  simp [search_arxiv, hs, hsim] at h
  rcases format_arxiv_eq h with ⟨ln, -, hsx⟩
  rw [hsx]
  exact append_newline_ne_empty _

/-! ## The orchestrator short-circuit -/

/-- Claim C1: whenever the e-print search succeeds, the orchestrator with
`use_arxiv` enabled returns exactly its result, never invokes the scholarly
search and never performs the courtesy delay — for every scholarly flag and
oracle. -/
theorem fallback_uses_arxiv (t : String) (af : Except String ArxivResponse)
    (us sa : Bool) (sf : Except String (Option ScholarResult)) (s : String)
    (h : search_arxiv t af = some s) :
    fallback_search t true us af sa sf = ⟨some s, true, false, false⟩ := by
  have hne : s ≠ "" := search_arxiv_ne_empty h
  simp [fallback_search, h, pyTruthy, String.isEmpty_iff, hne]

/-- Stub feed entry for the spec's end-to-end scenario. -/
def stubEntry : ArxivEntry :=
  ⟨some "Attention is All you Need", ["Ashish Vaswani"], some "2017-06-12T17:57:34Z",
   some "http://arxiv.org/abs/1706.03762v5",
   some "The dominant sequence transduction models", none, none⟩

/-- Stub parsed response: HTTP 200 with the single stub entry. -/
def stubResponse : ArxivResponse := ⟨200, [stubEntry]⟩

/-- The record `search_arxiv` produces from the stub response. -/
def stubBibtex : String :=
  "@article\x7barxiv:Vaswani2017,\n  author    = \x7bAshish Vaswani\x7d,\n  title     = \x7b\x7bAttention is All you Need\x7d\x7d,\n  journal   = \x7barXiv preprint arXiv:1706.03762\x7d,\n  year      = \x7b2017\x7d\n\x7d\n"

set_option maxRecDepth 8192 in
/-- Witness for C1: on the stub response the orchestrator returns the arxiv
record, with the scholarly search not invoked and no delay. -/
theorem fallback_uses_arxiv_witness :
    fallback_search "Attention Is All You Need" true true (.ok stubResponse) true (.ok none) =
      ⟨some stubBibtex, true, false, false⟩ :=
  fallback_uses_arxiv "Attention Is All You Need" (.ok stubResponse) true true (.ok none)
    stubBibtex (by decide)

/-- Claim C10: the arxiv formatter always emits an `@article` record whose
journal field is `arXiv preprint arXiv:<identifier>`; the DOI and
journal-reference values passed to it never influence the output, and
`search_arxiv`'s result is likewise independent of the first entry's DOI and
journal-reference fields. -/
theorem arxiv_format_ignores_crossrefs :
    (∀ (arxiv_id title year : String) (authors : List String)
      (doi journal_ref : Option String),
      _format_arxiv_bibtex arxiv_id title authors year doi journal_ref =
        _format_arxiv_bibtex arxiv_id title authors year none none) ∧
    (∀ (arxiv_id title year : String) (authors : List String)
      (doi journal_ref : Option String) (s : String),
      _format_arxiv_bibtex arxiv_id title authors year doi journal_ref = some s →
      (∃ r1 : List Char, s.data = ("@article\x7b").data ++ r1) ∧
      (∃ u v : List Char,
        s.data = u ++ ("  journal   = \x7barXiv preprint arXiv:" ++ arxiv_id ++ "\x7d,").data ++ v)) ∧
    (∀ (t : String) (sc : Nat) (e : ArxivEntry) (rest : List ArxivEntry)
      (d j : Option String),
      search_arxiv t (.ok ⟨sc, { e with doi := d, journal_ref := j } :: rest⟩) =
        search_arxiv t (.ok ⟨sc, e :: rest⟩)) := by
  refine ⟨fun _ _ _ _ _ _ => rfl, ?_, fun _ _ _ _ _ _ => rfl⟩
  intro arxiv_id title year authors doi journal_ref s h
  rcases format_arxiv_eq h with ⟨ln, hln, rfl⟩
  constructor
  · refine ⟨(("arxiv:" ++ ln ++ year) ++ "," ++ "\n" ++
      joinWith "\n" ["  author    = \x7b" ++ joinAuthors authors ++ "\x7d,",
        "  title     = \x7b\x7b" ++ title ++ "\x7d\x7d,",
        "  journal   = \x7barXiv preprint arXiv:" ++ arxiv_id ++ "\x7d,",
        "  year      = \x7b" ++ year ++ "\x7d", "\x7d"] ++ "\n").data, ?_⟩
    simp only [List.cons_append, List.nil_append, joinWith, String.data_append,
      List.append_assoc]
  · refine ⟨("@article\x7b" ++ ("arxiv:" ++ ln ++ year) ++ "," ++ "\n" ++
        ("  author    = \x7b" ++ joinAuthors authors ++ "\x7d,") ++ "\n" ++
        ("  title     = \x7b\x7b" ++ title ++ "\x7d\x7d,") ++ "\n").data,
      ("\n" ++ ("  year      = \x7b" ++ year ++ "\x7d") ++ "\n" ++ "\x7d" ++ "\n").data, ?_⟩
    simp only [List.cons_append, List.nil_append, joinWith, String.data_append,
      List.append_assoc]

set_option maxRecDepth 8192 in
/-- Witness for C10: a record formatted with a DOI and a journal reference
present still begins with `@article` and carries the arXiv journal field. -/
theorem arxiv_format_ignores_crossrefs_witness :
    (∃ r1 : List Char, stubBibtex.data = ("@article\x7b").data ++ r1) ∧
    (∃ u v : List Char,
      stubBibtex.data =
        u ++ ("  journal   = \x7barXiv preprint arXiv:" ++ "1706.03762" ++ "\x7d,").data ++ v) :=
  arxiv_format_ignores_crossrefs.2.1 "1706.03762" "Attention is All you Need" "2017"
    ["Ashish Vaswani"] (some "10.1000/182") (some "NeurIPS 2017") stubBibtex (by decide)

/-- The publication type computed by the scholarly search is always one of
the two record types. -/
theorem scholarPubType_cases (v : String) :
    scholarPubType v = "inproceedings" ∨ scholarPubType v = "article" := by
  unfold scholarPubType
  split
  · exact Or.inl rfl
  · exact Or.inr rfl

/-- Everything after the key line of the stub record. -/
def stubRecordRest : String :=
  "\n  author    = \x7bAshish Vaswani\x7d,\n  title     = \x7b\x7bAttention is All you Need\x7d\x7d,\n  journal   = \x7barXiv preprint arXiv:1706.03762\x7d,\n  year      = \x7b2017\x7d\n\x7d\n"

set_option maxRecDepth 8192 in
/-- Claim C9: every formatted record's citation key has the form
`<servicetag>:<AuthorSurname><Year>` — tag `arxiv` for the e-print search and
`scholar` for the scholarly search, with the surname the last word of the
first author — and the end-to-end scenario for "Attention Is All You Need"
yields the key `arxiv:Vaswani2017` with the version suffix stripped to
`1706.03762`. -/
theorem cite_key_format :
    (∀ (arxiv_id title year a : String) (rest : List String)
      (doi journal_ref : Option String) (s : String),
      _format_arxiv_bibtex arxiv_id title (a :: rest) year doi journal_ref = some s →
      ∃ ln tail : String, (pySplit a).getLast? = some ln ∧
        s = "@article\x7b" ++ "arxiv:" ++ ln ++ year ++ "," ++ tail) ∧
    (∀ (t : String) (res : ScholarResult) (s : String),
      search_google_scholar t true (.ok (some res)) = some s →
      ∃ pt ln tail : String, (pt = "inproceedings" ∨ pt = "article") ∧
        lastnameOf (scholarAuthors res.bib) = some ln ∧
        s = "@" ++ pt ++ "\x7b" ++ "scholar:" ++ ln ++ res.bib.pub_year.getD "" ++ "," ++ tail) ∧
    search_arxiv "Attention Is All You Need" (.ok stubResponse) = some stubBibtex ∧
    stubBibtex = "@article\x7b" ++ "arxiv:" ++ "Vaswani" ++ "2017" ++ "," ++ stubRecordRest := by
  refine ⟨?_, ?_, by decide, by decide⟩
  · intro arxiv_id title year a rest doi journal_ref s h
    rcases format_arxiv_eq h with ⟨ln, hln, rfl⟩
    refine ⟨ln, "\n" ++
      joinWith "\n" ["  author    = \x7b" ++ joinAuthors (a :: rest) ++ "\x7d,",
        "  title     = \x7b\x7b" ++ title ++ "\x7d\x7d,",
        "  journal   = \x7barXiv preprint arXiv:" ++ arxiv_id ++ "\x7d,",
        "  year      = \x7b" ++ year ++ "\x7d", "\x7d"] ++ "\n", hln, ?_⟩
    simp only [List.cons_append, List.nil_append, joinWith, String.append_assoc]
  · intro t res s h
    by_cases hsim : _title_similar t (res.bib.title.getD "") = true
    case neg => simp [search_google_scholar, hsim] at h
    simp only [search_google_scholar, hsim, not_true, ite_false, ite_true,
      Bool.not_true] at h
    rcases hln : lastnameOf (scholarAuthors res.bib) with _ | ln <;> rw [hln] at h
    · exact Option.noConfusion h
    have h2 := (Option.some.inj h).symm
    subst h2
    refine ⟨scholarPubType (scholarVenue res.bib), ln, "\n" ++
      joinWith "\n"
        (("  author    = \x7b" ++ joinAuthors (scholarAuthors res.bib) ++ "\x7d,") ::
         ("  title     = \x7b" ++ res.bib.title.getD "" ++ "\x7d,") ::
         scholarFieldLine (scholarPubType (scholarVenue res.bib)) (scholarVenue res.bib) ::
         ((if res.bib.pub_year.getD "" ≠ "" then
            ["  year      = \x7b" ++ res.bib.pub_year.getD "" ++ "\x7d,"] else []) ++
          ((if res.pub_url.getD "" ≠ "" then
            ["  url       = \x7b" ++ res.pub_url.getD "" ++ "\x7d,"] else []) ++
           ["\x7d"]))) ++ "\n",
      scholarPubType_cases _, rfl, ?_⟩
    simp only [List.append_eq, List.cons_append, List.nil_append, List.append_assoc, joinWith,
      String.append_assoc]

/-- Stub scholarly result used for concrete witnesses. -/
def stubScholarResult : ScholarResult :=
  ⟨⟨some "Attention is all you need", some (Sum.inr ["Ashish Vaswani", "Noam Shazeer"]),
    some "2017", some "Advances in neural information processing systems", none, none⟩,
   some "https://example.org/attention"⟩

/-- The record `search_google_scholar` produces from the stub result. -/
def stubScholarBibtex : String :=
  "@article\x7bscholar:Vaswani2017,\n  author    = \x7bAshish Vaswani and\n               Noam Shazeer\x7d,\n  title     = \x7bAttention is all you need\x7d,\n  journal   = \x7bAdvances in neural information processing systems\x7d,\n  year      = \x7b2017\x7d,\n  url       = \x7bhttps://example.org/attention\x7d,\n\x7d\n"

set_option maxRecDepth 8192 in
/-- Witness for C9: concrete keys `arxiv:Vaswani2017` and
`scholar:Vaswani2017`. -/
theorem cite_key_format_witness :
    (∃ ln tail : String, (pySplit "Ashish Vaswani").getLast? = some ln ∧
      stubBibtex = "@article\x7b" ++ "arxiv:" ++ ln ++ "2017" ++ "," ++ tail) ∧
    (∃ pt ln tail : String, (pt = "inproceedings" ∨ pt = "article") ∧
      lastnameOf (scholarAuthors stubScholarResult.bib) = some ln ∧
      stubScholarBibtex = "@" ++ pt ++ "\x7b" ++ "scholar:" ++ ln ++
        stubScholarResult.bib.pub_year.getD "" ++ "," ++ tail) :=
  ⟨cite_key_format.1 "1706.03762" "Attention is All you Need" "2017" "Ashish Vaswani" []
      none none stubBibtex (by decide),
   cite_key_format.2.1 "Attention Is All You Need" stubScholarResult stubScholarBibtex
      (by decide)⟩

/-- Claim C6: the scholarly search classifies a matching result as
`inproceedings` exactly when the venue contains "conference", "proceedings"
or "symposium" case-insensitively (else `article`), and that classification
selects the emitted field line (`booktitle` vs `journal`), which appears in
every successful output. -/
theorem scholar_classification :
    (∀ venue : String, scholarPubType venue = "inproceedings" ↔
      (pyContains (pyLower venue) "conference" = true ∨
       pyContains (pyLower venue) "proceedings" = true ∨
       pyContains (pyLower venue) "symposium" = true)) ∧
    (∀ venue : String, scholarPubType venue ≠ "inproceedings" →
      scholarPubType venue = "article") ∧
    (∀ venue : String,
      (scholarPubType venue = "inproceedings" →
        scholarFieldLine (scholarPubType venue) venue =
          "  booktitle = \x7b" ++ venue ++ "\x7d,") ∧
      (scholarPubType venue = "article" →
        scholarFieldLine (scholarPubType venue) venue =
          "  journal   = \x7b" ++ venue ++ "\x7d,")) ∧
    (∀ (t : String) (res : ScholarResult) (s : String),
      search_google_scholar t true (.ok (some res)) = some s →
      ∃ u v : String,
        s = u ++ scholarFieldLine (scholarPubType (scholarVenue res.bib))
          (scholarVenue res.bib) ++ v) := by
  refine ⟨?_, ?_, ?_, ?_⟩
  · intro venue
    unfold scholarPubType
    by_cases hcond : (pyContains (pyLower venue) "conference"
        || pyContains (pyLower venue) "proceedings"
        || pyContains (pyLower venue) "symposium") = true
    · rw [if_pos hcond]
      simp only [Bool.or_eq_true] at hcond
      exact iff_of_true rfl (by tauto)
    · rw [if_neg hcond]
      simp only [Bool.or_eq_true] at hcond
      constructor
      · intro hart
        exact absurd hart (by decide)
      · intro hor
        exact absurd (by tauto) hcond
  · intro venue h
    rcases scholarPubType_cases venue with h1 | h1
    · exact absurd h1 h
    · exact h1
  · intro venue
    constructor
    · intro h
      rw [h]
      unfold scholarFieldLine
      rw [if_pos rfl]
    · intro h
      rw [h]
      unfold scholarFieldLine
      rw [if_neg (by decide)]
  · intro t res s h
    by_cases hsim : _title_similar t (res.bib.title.getD "") = true
    case neg => simp [search_google_scholar, hsim] at h
    simp only [search_google_scholar, hsim, not_true, ite_false, ite_true,
      Bool.not_true] at h
    rcases hln : lastnameOf (scholarAuthors res.bib) with _ | ln <;> rw [hln] at h
    · exact Option.noConfusion h
    have h2 := (Option.some.inj h).symm
    subst h2
    have hR : ((if res.bib.pub_year.getD "" ≠ "" then
        ["  year      = \x7b" ++ res.bib.pub_year.getD "" ++ "\x7d,"] else []) ++
      ((if res.pub_url.getD "" ≠ "" then
        ["  url       = \x7b" ++ res.pub_url.getD "" ++ "\x7d,"] else []) ++
       (["\x7d"] : List String))) ≠ [] := by
      intro heq
      have hlen := congrArg List.length heq
      simp [List.length_append] at hlen
    simp only [String.append_assoc] at hR
    refine ⟨"@" ++ scholarPubType (scholarVenue res.bib) ++ "\x7b" ++
        ("scholar:" ++ ln ++ res.bib.pub_year.getD "") ++ "," ++ "\n" ++
        ("  author    = \x7b" ++ joinAuthors (scholarAuthors res.bib) ++ "\x7d,") ++ "\n" ++
        ("  title     = \x7b" ++ res.bib.title.getD "" ++ "\x7d,") ++ "\n",
      "\n" ++ joinWith "\n"
        ((if res.bib.pub_year.getD "" ≠ "" then
          ["  year      = \x7b" ++ res.bib.pub_year.getD "" ++ "\x7d,"] else []) ++
         ((if res.pub_url.getD "" ≠ "" then
          ["  url       = \x7b" ++ res.pub_url.getD "" ++ "\x7d,"] else []) ++
          ["\x7d"])) ++ "\n", ?_⟩
    simp only [List.append_eq, List.cons_append, List.nil_append, List.append_assoc,
      joinWith, String.append_assoc, joinWith_cons_of_ne _ _ hR]

set_option maxRecDepth 8192 in
/-- Witness for C6: the spec's two example venues, and the field line inside
a concrete successful output. -/
theorem scholar_classification_witness :
    scholarPubType "Proceedings of ICML" = "inproceedings" ∧
    scholarPubType "Journal of ML Research" = "article" ∧
    (∃ u v : String,
      stubScholarBibtex = u ++ scholarFieldLine
        (scholarPubType (scholarVenue stubScholarResult.bib))
        (scholarVenue stubScholarResult.bib) ++ v) :=
  ⟨(scholar_classification.1 "Proceedings of ICML").mpr (Or.inr (Or.inl (by decide))),
   scholar_classification.2.1 "Journal of ML Research" (by decide),
   scholar_classification.2.2.2 "Attention Is All You Need" stubScholarResult
     stubScholarBibtex (by decide)⟩

end FallbackSearch
